import Mathlib

/-!
Shallow embedding of `httomolib/prep/phase.py` (Fresnel filter, Paganin
filter, single-step phase retrieval) and proofs about the specification
claims.  Arrays are modelled as explicit shapes together with total
indexing functions over ℚ (the exact-rational idealisation of the float
arithmetic); the Fourier transforms and the transcendental scalar
functions (log, exp, sqrt), whose exact values are irrational, are
abstracted as oracle parameters, and theorems quantify over them (adding
only hypotheses that the real library functions satisfy).
-/

set_option maxHeartbeats 1000000

namespace Tomo

/-- Element dtype of a stored array (only the two float precisions occur
in the claims). -/
inductive DType where
  | float32
  | float64
deriving DecidableEq

/-- A complex number with rational components (model of a complex float). -/
structure QC where
  re : ℚ
  im : ℚ
deriving DecidableEq

def QC.add (a b : QC) : QC := ⟨a.re + b.re, a.im + b.im⟩

def QC.mul (a b : QC) : QC :=
  ⟨a.re * b.re - a.im * b.im, a.re * b.im + a.im * b.re⟩

/-- Complex division `a / b` (junk when `b = 0`, as for floats it is inf/nan). -/
def QC.div (a b : QC) : QC :=
  ⟨(a.re * b.re + a.im * b.im) / (b.re ^ 2 + b.im ^ 2),
   (a.im * b.re - a.re * b.im) / (b.re ^ 2 + b.im ^ 2)⟩

/-- Multiply a complex value by a real scalar. -/
def QC.mulR (a : QC) (r : ℚ) : QC := ⟨a.re * r, a.im * r⟩

/-- Divide a complex value by a real scalar. -/
def QC.divR (a : QC) (r : ℚ) : QC := ⟨a.re / r, a.im / r⟩

/-- Squared modulus of a complex value. -/
def QC.normSq (a : QC) : ℚ := a.re ^ 2 + a.im ^ 2

/-- A 1-D real array: explicit length and a total indexing function.
Out-of-range indices return junk values never read by faithful operations. -/
structure Arr1 where
  n : Nat
  el : Nat → ℚ

/-- A 2-D real array: explicit shape (rows `h`, columns `w`) and a total
indexing function. -/
structure Arr2 where
  h : Nat
  w : Nat
  el : Nat → Nat → ℚ

/-- A 2-D complex array. -/
structure Arr2C where
  h : Nat
  w : Nat
  el : Nat → Nat → QC

/-- A rank-3 stack (axes: image, row, column) carrying its dtype tag. -/
structure Arr3 where
  d : Nat
  h : Nat
  w : Nat
  dt : DType
  el : Nat → Nat → Nat → ℚ

/-- An array of arbitrary rank, as received by the public entry points. -/
structure NDArr where
  shape : List Nat
  dt : DType
  el : List Nat → ℚ

/-- Real part of a complex array (`cp.real`). -/
def Arr2C.re (a : Arr2C) : Arr2 := ⟨a.h, a.w, fun i j => (a.el i j).re⟩

/-- Elementwise quotient of a complex array by a real array. -/
def divCR (a : Arr2C) (b : Arr2) : Arr2C :=
  ⟨a.h, a.w, fun i j => (a.el i j).divR (b.el i j)⟩

/-- Elementwise quotient of two complex arrays. -/
def divCC (a b : Arr2C) : Arr2C :=
  ⟨a.h, a.w, fun i j => (a.el i j).div (b.el i j)⟩

/-- Elementwise product of a complex array and a real array. -/
def mulCR (a : Arr2C) (b : Arr2) : Arr2C :=
  ⟨a.h, a.w, fun i j => (a.el i j).mulR (b.el i j)⟩

/-- Divide a real array by a real scalar. -/
def divRS (a : Arr2) (s : ℚ) : Arr2 := ⟨a.h, a.w, fun i j => a.el i j / s⟩

/-- Source index of `np.fft.fftshift` output position `i` on an axis of
length `n` (`fftshift = roll by n/2`, so `out i = in ((i + n - n/2) % n)`). -/
def shiftIdx (n i : Nat) : Nat := (i + (n - n / 2)) % n

/-- Source index of `np.fft.ifftshift` output position `i`
(`ifftshift = roll by -(n/2)`, so `out i = in ((i + n/2) % n)`). -/
def ishiftIdx (n i : Nat) : Nat := (i + n / 2) % n

/-- `cp.fft.fftshift` of a real 2-D array over both axes. -/
def fftshift2 (a : Arr2) : Arr2 :=
  ⟨a.h, a.w, fun i j => a.el (shiftIdx a.h i) (shiftIdx a.w j)⟩

/-- `cp.fft.ifftshift` of a real 2-D array over both axes. -/
def ifftshift2 (a : Arr2) : Arr2 :=
  ⟨a.h, a.w, fun i j => a.el (ishiftIdx a.h i) (ishiftIdx a.w j)⟩

/-- `cp.fft.fftshift` of a complex 2-D array over both axes. -/
def fftshift2C (a : Arr2C) : Arr2C :=
  ⟨a.h, a.w, fun i j => a.el (shiftIdx a.h i) (shiftIdx a.w j)⟩

/-- `cp.fft.fftshift(·, axes=1)` of a complex 2-D array (columns only). -/
def fftshiftAx1 (a : Arr2C) : Arr2C :=
  ⟨a.h, a.w, fun i j => a.el i (shiftIdx a.w j)⟩

/-- `cp.fft.ifftshift(·, axes=1)` of a complex 2-D array (columns only). -/
def ifftshiftAx1 (a : Arr2C) : Arr2C :=
  ⟨a.h, a.w, fun i j => a.el i (ishiftIdx a.w j)⟩

/-- Clamped source index used by `mode="edge"` padding: a padded
position `i` with `before` leading pad elements on an axis of length `n`
reads source index `min (i - before) (n - 1)` (truncated subtraction
realises the replication of the first element). -/
def eidx (before n i : Nat) : Nat := min (i - before) (n - 1)

/-- `cp.pad(a, ((top, bottom), (left, right)), mode="edge")`, value level
(defined on the non-raising domain; `Arr2.padEdgeChecked` adds the
library's empty-axis check). -/
def Arr2.padEdge (a : Arr2) (top bottom left right : Nat) : Arr2 :=
  ⟨top + a.h + bottom, left + a.w + right,
   fun i j => a.el (eidx top a.h i) (eidx left a.w j)⟩

/-- The `ValueError` message `cp.pad` raises when asked to extend an
empty axis with a non-constant mode (numpy wording, apostrophes elided:
it reads: can't extend empty axis 0 using modes other than 'constant'
or 'empty'). -/
def emptyAxisPadMsg : String :=
  "cannot extend empty axis 0 using modes other than constant or empty"

/-- `cp.pad(a, ((top, bottom), (left, right)), mode="edge")` with the
library's check: padding a 0-length axis by a positive amount in edge
mode raises `ValueError`; otherwise the edge-replicated array results. -/
def Arr2.padEdgeChecked (a : Arr2) (top bottom left right : Nat) :
    Except String Arr2 :=
  if (a.h = 0 ∧ 0 < top + bottom) ∨ (a.w = 0 ∧ 0 < left + right) then
    Except.error emptyAxisPadMsg
  else
    Except.ok (a.padEdge top bottom left right)

/-- `a[k:]` on the row axis: drop the first `k` rows. -/
def Arr2.dropRows (a : Arr2) (k : Nat) : Arr2 :=
  ⟨a.h - k, a.w, fun i j => a.el (i + k) j⟩

/-- `a[r0:r0+nh, c0:c0+nw]`: a rectangular slice. -/
def Arr2.crop (a : Arr2) (r0 c0 nh nw : Nat) : Arr2 :=
  ⟨nh, nw, fun i j => a.el (r0 + i) (c0 + j)⟩

/-- Image `k` of a stack. -/
def Arr3.img (a : Arr3) (k : Nat) : Arr2 := ⟨a.h, a.w, fun i j => a.el k i j⟩

/-- Elementwise map over a stack (dtype preserved). -/
def Arr3.map (a : Arr3) (f : ℚ → ℚ) : Arr3 :=
  ⟨a.d, a.h, a.w, a.dt, fun k i j => f (a.el k i j)⟩

/-- Maximum entry of a 2-D array (`a.max()`); junk on an empty array. -/
def Arr2.maxVal (a : Arr2) : ℚ :=
  (List.range (a.h * a.w)).foldl
    (fun acc t => max acc (a.el (t / a.w) (t % a.w))) (a.el 0 0)

/-- Oracles for the library operations whose exact real values are not
rational: the CuPy FFTs, `log`, `exp`, `sqrt`, the finite-value rounding
of `cp.asarray(..., dtype=cp.float32)` (`rcastF32`; its overflow and
underflow effects on values ℚ cannot carry are modelled exactly in the
`FloatVal` pipeline below), and the elementwise semantics of `cp.pad`
for a caller-chosen mode string.  The embedded filters are
parameterised by one such record; theorems quantify over it. -/
structure FFTOracles where
  fft2 : Arr2 → Arr2C
  ifft2 : Arr2C → Arr2C
  fft1 : Arr2 → Arr2C
  ifft1 : Arr2C → Arr2C
  rlog : ℚ → ℚ
  rexp : ℚ → ℚ
  rsqrt : ℚ → ℚ
  rcastF32 : ℚ → ℚ
  padEl : String → Arr3 → Nat → Nat → Nat → Nat → Nat → ℚ

/-- `cp.pad(a, ((0,0), (py,py), (px,px)), mode=pad_method)`: the padded
shape is mode-independent; the padded elements come from the oracle. -/
def cpPad3 (O : FFTOracles) (mode : String) (a : Arr3) (py px : Nat) : Arr3 :=
  ⟨a.d, a.h + 2 * py, a.w + 2 * px, a.dt, O.padEl mode a py px⟩

/-! ### Physical constants (module header of `phase.py`) -/

/-- `BOLTZMANN_CONSTANT = 1.3806488e-16  # [erg/k]` -/
def BOLTZMANN_CONSTANT : ℚ := 13806488 / 10 ^ 23

/-- `SPEED_OF_LIGHT = 299792458e+2  # [cm/s]` -/
def SPEED_OF_LIGHT : ℚ := 29979245800

/-- `PI = 3.14159265359` -/
def PI : ℚ := 314159265359 / 10 ^ 11

/-- `PLANCK_CONSTANT = 6.58211928e-19  # [keV*s]` -/
def PLANCK_CONSTANT : ℚ := 658211928 / 10 ^ 27

/-- `math.pi`: the IEEE-754 double closest to the circle constant,
exactly `884279719003555 / 2^48` (used by `paganin_filter`). -/
def FLOAT_PI : ℚ := 884279719003555 / 281474976710656

/-! ### Input validation shared by the three entry points -/

/-- The `ValueError` message
`f"Invalid number of dimensions in data: {ndim}, please provide a stack of 2D projections."` -/
def invalidShapeMsg (n : Nat) : String :=
  "Invalid number of dimensions in data: " ++ toString n ++
    ", please provide a stack of 2D projections."

/-- `cp.expand_dims(a, 0)`: prepend a length-1 axis. -/
def NDArr.expandDims0 (a : NDArr) : NDArr :=
  ⟨1 :: a.shape, a.dt, fun l => a.el l.tail⟩

/-- View a rank-3 `NDArr` as an `Arr3` (junk on other ranks, which the
entry points reject before calling this). -/
def NDArr.toArr3 (a : NDArr) : Arr3 :=
  match a.shape with
  | [d, h, w] => ⟨d, h, w, a.dt, fun m i j => a.el [m, i, j]⟩
  | _ => ⟨0, 0, 0, a.dt, fun _ _ _ => 0⟩

/-- `if data.ndim == 2: data = cp.expand_dims(data, 0)`. -/
def promoteRank (a : NDArr) : NDArr :=
  if a.shape.length = 2 then a.expandDims0 else a

/-! ### `fresnel_filter` (`phase.py` lines 45-148) -/

/-- `_make_window(height, width, ratio, pattern)` (lines 135-148):
centres `int(cp.ceil((dim - 1) * 0.5))`; for `pattern == "PROJECTION"`
the 2-D window `1 + ratio * (u^2 + v^2)` built by `meshgrid` (so `u`
varies with the column index, `v` with the row index); otherwise the
1-D window `1 + ratio * u^2` tiled over all rows. -/
def _make_window (height width : Nat) (ratio : ℚ) (pattern : String) : Arr2 :=
  let center_hei : ℤ := ⌈((height : ℚ) - 1) * (1 / 2)⌉
  let center_wid : ℤ := ⌈((width : ℚ) - 1) * (1 / 2)⌉
  if pattern = "PROJECTION" then
    ⟨height, width, fun i j =>
      1 + ratio * ((((j : ℚ) - center_wid) / width) ^ 2
        + (((i : ℚ) - center_hei) / height) ^ 2)⟩
  else
    ⟨height, width, fun _i j =>
      1 + ratio * (((j : ℚ) - center_wid) / width) ^ 2⟩

/-- The `pattern == "PROJECTION"` body of the per-image loop (lines
108-118): drop the first 10 rows, edge-pad by `(pad_width + 10, pad_width)`
rows and `(pad_width, pad_width)` columns (raising `ValueError` when the
row-dropped image is empty, i.e. for images of at most 10 rows),
edge-pad the window likewise, deconvolve by the `ifftshift`-ed padded
window in 2-D Fourier space, take the real part, and crop
`[pad_width : pad_width + nrow, pad_width : pad_width + ncol]`. -/
def fresnelProjImage (O : FFTOracles) (mat : Arr3) (window : Arr2)
    (pad_width nrow ncol k : Nat) : Except String Arr2 :=
  Except.bind
    (((mat.img k).dropRows 10).padEdgeChecked
      (pad_width + 10) pad_width pad_width pad_width)
    (fun mat_pad =>
      Except.map
        (fun win_pad =>
          (Arr2C.re (O.ifft2 (divCR (O.fft2 mat_pad)
            (ifftshift2 win_pad)))).crop pad_width pad_width nrow ncol)
        (window.padEdgeChecked pad_width pad_width pad_width pad_width))

/-- The generic (non-`"PROJECTION"`) body of the per-image loop (lines
120-127): pad columns only (never raising, since a positive pad width
implies at least 10 columns), 1-D FFT along rows, `fftshift(axes=1)`,
divide by the padded window, `ifftshift(axes=1)`, inverse 1-D FFT, real
part, crop columns `[pad_width : pad_width + ncol]`. -/
def fresnelGenImage (O : FFTOracles) (mat : Arr3) (window : Arr2)
    (pad_width nrow ncol k : Nat) : Except String Arr2 :=
  Except.bind ((mat.img k).padEdgeChecked 0 0 pad_width pad_width)
    (fun mat_pad =>
      Except.map
        (fun win_pad =>
          (Arr2C.re (O.ifft1 (ifftshiftAx1
            (divCR (fftshiftAx1 (O.fft1 mat_pad)) win_pad)))).crop
            0 pad_width nrow ncol)
        (window.padEdgeChecked 0 0 pad_width pad_width))

/-- One iteration body of the `fresnel_filter` loop (lines 107-127):
the `"PROJECTION"` or generic branch for image `k`. -/
def fresnelImage (O : FFTOracles) (mat : Arr3) (window : Arr2)
    (pad_width : Nat) (pattern : String) (nrow ncol k : Nat) :
    Except String Arr2 :=
  if pattern = "PROJECTION" then
    fresnelProjImage O mat window pad_width nrow ncol k
  else
    fresnelGenImage O mat window pad_width nrow ncol k

/-- Sequential execution of the first `n` iterations of the
`fresnel_filter` loop, propagating the first raised error (the loop of
line 107 runs the images in order and aborts on the first
`ValueError`). -/
def fresnelLoopCheck (O : FFTOracles) (mat : Arr3) (window : Arr2)
    (pad_width : Nat) (pattern : String) (nrow ncol : Nat) :
    Nat → Except String Unit
  | 0 => Except.ok ()
  | Nat.succ n =>
    match fresnelLoopCheck O mat window pad_width pattern nrow ncol n with
    | Except.error e => Except.error e
    | Except.ok _ =>
      match fresnelImage O mat window pad_width pattern nrow ncol n with
      | Except.error e => Except.error e
      | Except.ok _ => Except.ok ()

/-- Element read-out of a computed image (0 on the error branch, which
the result constructor below only uses after the loop check passed). -/
def exceptElD : Except String Arr2 → Nat → Nat → ℚ
  | Except.ok a, i, j => a.el i j
  | Except.error _, _, _ => 0

/-- Window construction, pad-width computation, result allocation and
the per-image loop of `fresnel_filter` (lines 85-127), on the (possibly
log-transformed) stack `mat`.
`pad_width = min(150, int(0.1 * width1))`, where `int(0.1 * width1)` is
`width1 / 10` (floor); the result buffer is
`cp.zeros((depth, min(nrow, nrow + pad), min(ncol, ncol + pad)))`
(float64 default) and each image slot is overwritten by the filtered
image; the first `ValueError` raised inside the loop aborts the call. -/
def fresnelRes (O : FFTOracles) (mat : Arr3) (pattern : String)
    (ratio : ℚ) : Except String Arr3 :=
  Except.map
    (fun _ =>
      (⟨mat.d,
        min mat.h (mat.h + min 150 (mat.w / 10) * 2 - min 150 (mat.w / 10)),
        min mat.w (mat.w + min 150 (mat.w / 10) * 2 - min 150 (mat.w / 10)),
        DType.float64, fun k i j =>
        if k < mat.d ∧
            i < min mat.h
              (mat.h + min 150 (mat.w / 10) * 2 - min 150 (mat.w / 10)) ∧
            j < min mat.w
              (mat.w + min 150 (mat.w / 10) * 2 - min 150 (mat.w / 10)) then
          exceptElD
            (fresnelImage O mat (_make_window mat.h mat.w ratio pattern)
              (min 150 (mat.w / 10)) pattern mat.h mat.w k) i j
        else 0⟩ : Arr3))
    (fresnelLoopCheck O mat (_make_window mat.h mat.w ratio pattern)
      (min 150 (mat.w / 10)) pattern mat.h mat.w mat.d)

/-- The epilogue of `fresnel_filter` (lines 129-132): the optional
`exp(-x)` post-map and `cp.asarray(res, dtype=cp.float32)`, whose
finite-value rounding is the `rcastF32` oracle. -/
def fresnelFinish (O : FFTOracles) (apply_log : Bool) (res : Arr3) : Arr3 :=
  let res2 := if apply_log then res.map (fun x => O.rexp (-x)) else res
  ⟨res2.d, res2.h, res2.w, DType.float32,
   fun k i j => O.rcastF32 (res2.el k i j)⟩

/-- Body of `fresnel_filter` after the rank check (lines 82-132): the
optional `-log` pre-map, the per-image loop (which may raise), and the
epilogue. -/
def fresnel_core (O : FFTOracles) (mat0 : Arr3) (pattern : String)
    (ratio : ℚ) (apply_log : Bool) : Except String Arr3 :=
  Except.map (fresnelFinish O apply_log)
    (fresnelRes O
      (if apply_log then mat0.map (fun x => -(O.rlog x)) else mat0)
      pattern ratio)

/-- `fresnel_filter(mat, pattern, ratio, apply_log)` (lines 45-132):
rank validation followed by `fresnel_core` (whose loop may itself raise
the `cp.pad` empty-axis `ValueError`). -/
def fresnel_filter (O : FFTOracles) (mat : NDArr) (pattern : String)
    (ratio : ℚ) (apply_log : Bool) : Except String Arr3 :=
  if (promoteRank mat).shape.length ≠ 3 then
    Except.error (invalidShapeMsg (promoteRank mat).shape.length)
  else
    fresnel_core O (promoteRank mat).toArr3 pattern ratio apply_log

/-! ### `paganin_filter` (`phase.py` lines 154-258) -/

/-- Per-image body of the `paganin_filter` loop (lines 247-256) on the
padded stack `data`: sanitise (`cp.nan_to_num` is the identity on the
finite rationals modelled here, then zero pixels become `1.0`), cast to
float32 (`cp.asarray(proj, dtype=cp.float32)` of line 252, finite-value
rounding via the `rcastF32` oracle; its overflow/underflow behaviour on
the non-finite-producing float64 inputs is modelled exactly in the
`FloatVal` pipeline `paganinPixel`), 2-D FFT, `fftshift`, divide by the
complex filter, inverse 2-D FFT, modulus, then
`-0.5 * ratio * log(fpci + increment)`. -/
def paganinImage (O : FFTOracles) (data : Arr3) (filtercomplex : Arr2C)
    (ratio increment : ℚ) (m : Nat) : Arr2 :=
  let proj0 : Arr2 := ⟨data.h, data.w, fun i j =>
    if data.el m i j = 0 then 1 else data.el m i j⟩
  let pci1 := O.fft2 ⟨proj0.h, proj0.w, fun i j => O.rcastF32 (proj0.el i j)⟩
  let pci2 := divCC (fftshift2C pci1) filtercomplex
  let ifp := O.ifft2 pci2
  ⟨data.h, data.w, fun i j =>
    -(1 / 2) * ratio * O.rlog (O.rsqrt (QC.normSq (ifp.el i j)) + increment)⟩

/-- Body of `paganin_filter` after the rank check (lines 211-258):
unit conversions, the complex Paganin filter over the padded geometry
(note `math.pi`, not the module's `PI`), padding of the whole stack with
the caller's `pad_method`, and the per-image loop writing the crop
`[pad_y : pad_y + height, pad_x : pad_x + width]` into a float32 result
buffer of the original geometry. -/
def paganin_core (O : FFTOracles) (data0 : Arr3)
    (ratio energy distance resolution : ℚ) (pad_y pad_x : Nat)
    (pad_method : String) (increment : ℚ) : Arr3 :=
  let height := data0.h
  let width := data0.w
  let energy2 := energy * 1000
  let resolution2 := resolution * (1 / 10 ^ 6)
  let wavelength := (1240 / energy2) * (1 / 10 ^ 9)
  let height1 := height + 2 * pad_y
  let width1 := width + 2 * pad_x
  let centery : ℚ := ((⌈(height1 : ℚ) / 2⌉ : ℤ) : ℚ) - 1
  let centerx : ℚ := ((⌈(width1 : ℚ) / 2⌉ : ℤ) : ℚ) - 1
  let dpx := 1 / ((width1 : ℚ) * resolution2)
  let dpy := 1 / ((height1 : ℚ) * resolution2)
  let pd : Arr2 := ⟨height1, width1, fun i j =>
    ((((j : ℚ) - centerx) * dpx) * (((j : ℚ) - centerx) * dpx)
      + (((i : ℚ) - centery) * dpy) * (((i : ℚ) - centery) * dpy))
      * wavelength * distance * FLOAT_PI⟩
  let filtercomplex : Arr2C := ⟨height1, width1, fun i j =>
    ⟨1 + ratio * pd.el i j, 1 + ratio * pd.el i j⟩⟩
  let data := cpPad3 O pad_method data0 pad_y pad_x
  ⟨data.d, height, width, DType.float32, fun m i j =>
    if m < data.d ∧ i < height ∧ j < width then
      (paganinImage O data filtercomplex ratio increment m).el
        (pad_y + i) (pad_x + j)
    else 0⟩

/-- `paganin_filter(data, ...)` (lines 154-258): rank validation
followed by `paganin_core`. -/
def paganin_filter (O : FFTOracles) (data : NDArr)
    (ratio energy distance resolution : ℚ) (pad_y pad_x : Nat)
    (pad_method : String) (increment : ℚ) : Except String Arr3 :=
  if (promoteRank data).shape.length ≠ 3 then
    Except.error (invalidShapeMsg (promoteRank data).shape.length)
  else
    Except.ok (paganin_core O (promoteRank data).toArr3 ratio energy distance
      resolution pad_y pad_x pad_method increment)

/-! ### `retrieve_phase` (`phase.py` lines 264-464) -/

/-- `_wavelength(energy) = 2 * PI * PLANCK_CONSTANT * SPEED_OF_LIGHT / energy`
(line 389). -/
def _wavelength (energy : ℚ) : ℚ :=
  2 * PI * PLANCK_CONSTANT * SPEED_OF_LIGHT / energy

/-- `_paganin_filter_factor` (line 393):
`1 / (wavelength * dist * w2 / (4 * PI) + alpha)` elementwise. -/
def _paganin_filter_factor (energy dist alpha : ℚ) (w2 : Arr2) : Arr2 :=
  ⟨w2.h, w2.w, fun i j =>
    1 / (_wavelength energy * dist * w2.el i j / (4 * PI) + alpha)⟩

/-- `cp.arange(start, stop, step)`: length `⌈(stop - start) / step⌉`
(clamped at 0), element `k` equal to `start + k * step`. -/
def cparange (start stop step : ℚ) : Arr1 :=
  ⟨Int.toNat ⌈(stop - start) / step⌉, fun k => start + k * step⟩

/-- `_reciprocal_coord(pixel_size, num_grid)` (lines 444-464):
`cp.arange(-(num_grid - 1), num_grid, 2)` scaled by
`0.5 / ((num_grid - 1) * pixel_size)`.  This is the value on the
non-raising domain; the scalar divisor check of the real code is
`_reciprocal_coord_checked` below. -/
def _reciprocal_coord (pixel_size : ℚ) (num_grid : Nat) : Arr1 :=
  let n := num_grid - 1
  let rc := cparange (-(n : ℚ)) (num_grid : ℚ) 2
  ⟨rc.n, fun k => rc.el k * ((1 / 2) / ((n : ℚ) * pixel_size))⟩

/-- The Python `ZeroDivisionError` message for a float division. -/
def zeroDivisionMsg : String := "float division by zero"

/-- `_reciprocal_coord` with the scalar-division check of line 463:
`rc *= 0.5 / (n * pixel_size)` divides by the Python float
`(num_grid - 1) * pixel_size` and raises `ZeroDivisionError` when that
divisor is zero (i.e. `num_grid = 1`, or `pixel_size = 0`); otherwise
the coordinates result.  (Python's `n = num_grid - 1` is a signed
integer, hence the divisor is written with the rational
`num_grid - 1`.)  The retrieval theorems below use the unchecked value
only at axis lengths of at least 2 with a non-zero pixel size, where
the two agree. -/
def _reciprocal_coord_checked (pixel_size : ℚ) (num_grid : Nat) :
    Except String Arr1 :=
  if ((num_grid : ℚ) - 1) * pixel_size = 0 then
    Except.error zeroDivisionMsg
  else
    Except.ok (_reciprocal_coord pixel_size num_grid)

/-- `_reciprocal_grid(pixel_size, nx, ny)` (lines 408-441): the outer
sum of the squared 1-D reciprocal coordinates,
`grid[i, j] = indx[i]^2 + indy[j]^2`. -/
def _reciprocal_grid (pixel_size : ℚ) (nx ny : Nat) : Arr2 :=
  let indx := _reciprocal_coord pixel_size nx
  let indy := _reciprocal_coord pixel_size ny
  ⟨indx.n, indy.n, fun i j => indx.el i ^ 2 + indy.el j ^ 2⟩

/-- `ceil(log2 x)` for a rational `x ≥ 1` (the exact-arithmetic reading
of `cp.ceil(cp.log2(x))`): the least `k` with `2 ^ k ≥ x`, computed as
`Nat.clog 2 ⌈x⌉`. -/
def ceilLog2 (x : ℚ) : Nat := Nat.clog 2 (Int.toNat ⌈x⌉)

/-- `_calc_pad_width(dim, pixel_size, wavelength, dist)` (lines 398-401):
`pad_pix = ceil(PI * wavelength * dist / pixel_size**2)` and
`int((2 ** ceil(log2(dim + pad_pix)) - dim) * 0.5)` (`int(x * 0.5)` on
the non-negative value is division by 2 rounding down). -/
def _calc_pad_width (dim : Nat) (pixel_size wavelength dist : ℚ) : Nat :=
  Int.toNat (((2 : ℤ) ^ ceilLog2 ((dim : ℚ) +
    ((⌈PI * wavelength * dist / pixel_size ^ 2⌉ : ℤ) : ℚ)) - (dim : ℤ)) / 2)

/-- `_calc_pad_val(tomo) = cp.mean((tomo[..., 0] + tomo[..., -1]) * 0.5)`
(line 404). -/
def _calc_pad_val (tomo : Arr3) : ℚ :=
  (∑ m ∈ Finset.range tomo.d, ∑ i ∈ Finset.range tomo.h,
      (tomo.el m i 0 + tomo.el m i (tomo.w - 1)) * (1 / 2))
    / ((tomo.d * tomo.h : Nat) : ℚ)

/-- `_calc_pad(tomo, pixel_size, dist, energy, pad)` (lines 352-386):
`(0, 0, 0)` when `pad` is false, otherwise the two `_calc_pad_width`
values and the `_calc_pad_val` fill value. -/
def _calc_pad (tomo : Arr3) (pixel_size dist energy : ℚ) (pad : Bool) :
    Nat × Nat × ℚ :=
  let wavelength := _wavelength energy
  if pad then
    (_calc_pad_width tomo.h pixel_size wavelength dist,
     _calc_pad_width tomo.w pixel_size wavelength dist,
     _calc_pad_val tomo)
  else (0, 0, 0)

/-- Start row of the Python slice `a[-p:]` on an axis of length `n`:
for `p = 0` the slice `a[-0:]` is `a[0:]`, the whole axis; otherwise it
starts at `n - p`. -/
def negSliceStart (n p : Nat) : Nat := if p = 0 then 0 else n - p

/-- In-place rectangle assignment `a[r0:r0+rcnt, c0:c0+ccnt] = src`
(with `src` already evaluated against the pre-assignment state, as in
Python, where the right-hand side is read out before the store). -/
def Arr2.setRect (a : Arr2) (r0 rcnt c0 ccnt : Nat)
    (src : Nat → Nat → ℚ) : Arr2 :=
  ⟨a.h, a.w, fun i j =>
    if r0 ≤ i ∧ i < r0 + rcnt ∧ c0 ≤ j ∧ j < c0 + ccnt then
      src (i - r0) (j - c0)
    else a.el i j⟩

/-- The working buffer of `_retrieve_phase` just before `cp.fft.fft2`
in iteration `m` (lines 334-338):
`prj[px:dy+px, py:dz+py] = tomo[m]`, `prj[:px] = prj[px]`,
`prj[-px:] = prj[-px-1]`, `prj[:, :py] = prj[:, py][:, newaxis]`,
`prj[:, -py:] = prj[:, -py-1][:, newaxis]`.  (Each iteration rewrites
every cell, so the buffer is a function of `tomo[m]` alone.) -/
def rpPrj (tomo : Arr3) (m px py : Nat) (prj0 : Arr2) : Arr2 :=
  let p1 := prj0.setRect px tomo.h py tomo.w (tomo.el m)
  let p2 := p1.setRect 0 px 0 p1.w (fun _ j => p1.el px j)
  let p3 := p2.setRect (negSliceStart p2.h px) (p2.h - negSliceStart p2.h px)
    0 p2.w (fun _ j => p2.el (p2.h - px - 1) j)
  let p4 := p3.setRect 0 p3.h 0 py (fun i _ => p3.el i py)
  let p5 := p4.setRect 0 p4.h (negSliceStart p4.w py)
    (p4.w - negSliceStart p4.w py) (fun i _ => p4.el i (p4.w - py - 1))
  p5

/-- The transform-filter-invert step of `_retrieve_phase` (lines 343-345):
`real(ifft2(fft2(prj) * normalized_phase_filter))`. -/
def rpStep (O : FFTOracles) (npf : Arr2) (prj : Arr2) : Arr2 :=
  Arr2C.re (O.ifft2 (mulCR (O.fft2 prj) npf))

/-- `_retrieve_phase(tomo, phase_filter, px, py, prj, pad)` (lines
322-349): normalise the filter by its maximum, then for every image
build the padded buffer, transform-filter-invert and write back into
`tomo[m]` (cropped to `[px:dy+px, py:dz+py]` when `pad` is set).  The
returned stack is the mutated `tomo` itself, dtype included. -/
def _retrieve_phase (O : FFTOracles) (tomo : Arr3) (phase_filter : Arr2)
    (px py : Nat) (prj : Arr2) (pad : Bool) : Arr3 :=
  let npf := divRS phase_filter phase_filter.maxVal
  ⟨tomo.d, tomo.h, tomo.w, tomo.dt, fun m i j =>
    if m < tomo.d ∧ i < tomo.h ∧ j < tomo.w then
      (let proj := rpStep O npf (rpPrj tomo m px py prj)
       if pad then proj.el (px + i) (py + j) else proj.el i j)
    else tomo.el m i j⟩

/-- Body of `retrieve_phase` after the rank check (lines 305-319):
pad amounts and fill value, reciprocal grid over the padded geometry,
`fftshift`-ed filter factor, preallocated fill buffer, `_retrieve_phase`. -/
def retrieve_core (O : FFTOracles) (tomo : Arr3)
    (pixel_size dist energy alpha : ℚ) (pad : Bool) : Arr3 :=
  let p := _calc_pad tomo pixel_size dist energy pad
  let py := p.1
  let pz := p.2.1
  let val := p.2.2
  let w2 := _reciprocal_grid pixel_size (tomo.h + 2 * py) (tomo.w + 2 * pz)
  let phase_filter := fftshift2 (_paganin_filter_factor energy dist alpha w2)
  let prj : Arr2 := ⟨tomo.h + 2 * py, tomo.w + 2 * pz, fun _ _ => val⟩
  _retrieve_phase O tomo phase_filter py pz prj pad

/-- `retrieve_phase(tomo, ...)` (lines 264-319): rank validation
followed by `retrieve_core`. -/
def retrieve_phase (O : FFTOracles) (tomo : NDArr)
    (pixel_size dist energy alpha : ℚ) (pad : Bool) : Except String Arr3 :=
  if (promoteRank tomo).shape.length ≠ 3 then
    Except.error (invalidShapeMsg (promoteRank tomo).shape.length)
  else
    Except.ok (retrieve_core O (promoteRank tomo).toArr3 pixel_size dist
      energy alpha pad)

/-! ### Buffer mutation semantics of the three calls

`fresnel_filter` and `paganin_filter` never store into the caller's
array object (they only rebind local names to freshly allocated arrays),
so the caller's buffer after the call is the unchanged input.
`_retrieve_phase` executes `tomo[m] = proj` (line 348) and returns
`tomo`: the result *is* the caller's buffer, which therefore holds the
filtered values after the call.  Each `*_call` function returns the pair
`(returned stack, caller's input buffer after the call)`. -/

def fresnel_call (O : FFTOracles) (mat : Arr3) (pattern : String)
    (ratio : ℚ) (apply_log : Bool) : Except String Arr3 × Arr3 :=
  (fresnel_core O mat pattern ratio apply_log, mat)

def paganin_call (O : FFTOracles) (data : Arr3)
    (ratio energy distance resolution : ℚ) (pad_y pad_x : Nat)
    (pad_method : String) (increment : ℚ) : Arr3 × Arr3 :=
  (paganin_core O data ratio energy distance resolution pad_y pad_x
    pad_method increment, data)

def retrieve_call (O : FFTOracles) (tomo : Arr3)
    (pixel_size dist energy alpha : ℚ) (pad : Bool) : Arr3 × Arr3 :=
  let r := retrieve_core O tomo pixel_size dist energy alpha pad
  (r, r)

/-! ### Float-level model of the Paganin sanitisation (lines 250-251)

The per-pixel semantics of `proj = cp.nan_to_num(data[i])` followed by
`proj[proj == 0] = 1.0` over actual IEEE floats, including the
non-finite values that ℚ cannot represent. -/

/-- An IEEE double value as seen by `nan_to_num`: a finite rational,
NaN, or a signed infinity. -/
inductive FloatVal where
  | fin (q : ℚ)
  | nan
  | pinf
  | ninf
deriving DecidableEq

/-- The largest finite IEEE double, `np.finfo(float64).max`
(`1.7976931348623157e308` exactly, in binary form). -/
def FLOAT64_MAX : ℚ := (2 ^ 53 - 1) * 2 ^ 971

/-- The largest finite IEEE single, `np.finfo(float32).max`
(`3.4028235e38` approximately, in binary form). -/
def FLOAT32_MAX : ℚ := (2 ^ 24 - 1) * 2 ^ 104

/-- The largest finite value of a dtype, which `cp.nan_to_num` uses as
the replacement for `+inf` in an array of that dtype. -/
def dtypeMax : DType → ℚ
  | DType.float32 => FLOAT32_MAX
  | DType.float64 => FLOAT64_MAX

/-- `cp.nan_to_num` with default arguments on an array of dtype `dt`:
NaN becomes `0.0`, `+inf` becomes the dtype's largest finite value,
`-inf` its negation; finite values are unchanged. -/
def nan_to_num (dt : DType) : FloatVal → FloatVal
  | .fin q => .fin q
  | .nan => .fin 0
  | .pinf => .fin (dtypeMax dt)
  | .ninf => .fin (-(dtypeMax dt))

/-- `proj[proj == 0] = 1.0`: exact zeros become one; all other values
(non-finite ones included, since NaN and inf compare unequal to 0)
are unchanged. -/
def zeroToOne : FloatVal → FloatVal
  | .fin q => if q = 0 then .fin 1 else .fin q
  | v => v

/-- Lines 250-251 of `paganin_filter` on one pixel of an array of
dtype `dt`: `cp.nan_to_num` then the zero replacement. -/
def paganinSanitize (dt : DType) (x : FloatVal) : FloatVal :=
  zeroToOne (nan_to_num dt x)

/-- Smallest magnitude that the float32 cast rounds away from zero:
half the smallest subnormal single (`2 ^ (-150)`); values of at most
this magnitude become exact `0.0` (the tie rounds to the even mantissa,
zero). -/
def F32_TINY : ℚ := 1 / 2 ^ 150

/-- Overflow threshold of the float32 cast under round-to-nearest-even:
`(2^24 - 1/2) * 2^104 = 2^128 - 2^103`; magnitudes at least this become
infinite (the tie at the threshold rounds to the even candidate
`2^128`, which is out of range). -/
def F32_OVERFLOW : ℚ := 2 ^ 128 - 2 ^ 103

/-- The finite values representable in IEEE single precision: zero, or
`m * 2^e` with a non-zero integer mantissa `|m| < 2^24` and exponent
`-149 ≤ e ≤ 104`. -/
def IsF32 (q : ℚ) : Prop :=
  q = 0 ∨ ∃ m : ℤ, ∃ e : ℤ,
    q = (m : ℚ) * (2 : ℚ) ^ e ∧ m ≠ 0 ∧ |m| < 2 ^ 24 ∧ -149 ≤ e ∧ e ≤ 104

/-- A float value whose finite component (if any) is float32
representable — the shape of every pixel of a float32 array. -/
def IsF32Val : FloatVal → Prop
  | .fin q => IsF32 q
  | _ => True

/-- The value map of `cp.asarray(..., dtype=cp.float32)` on one
element: non-finite values pass through; finite values overflow to the
matching infinity at magnitude `F32_OVERFLOW` and beyond, underflow to
exact zero at magnitude `F32_TINY` and below, and are otherwise rounded
by `round` (the round-to-nearest-even map, abstracted as an oracle that
theorems constrain to be the identity on representable values). -/
def castF32 (round : ℚ → ℚ) : FloatVal → FloatVal
  | .fin q =>
    if F32_OVERFLOW ≤ |q| then (if 0 ≤ q then .pinf else .ninf)
    else if |q| ≤ F32_TINY then .fin 0
    else .fin (round q)
  | v => v

/-- The complete per-pixel path from a stored pixel of dtype `dt` to
the value `cp.fft.fft2` receives in `paganin_filter` (lines 250-252):
`nan_to_num`, the zero replacement, then the float32 cast. -/
def paganinPixel (round : ℚ → ℚ) (dt : DType) (x : FloatVal) : FloatVal :=
  castF32 round (paganinSanitize dt x)

/-! ### Spec-side definitions (written from the claims, for comparison
with the source-side definitions above) -/

/-- The claim's centre `ceil((dim - 1) / 2)`. -/
def specCenter (dim : Nat) : ℤ := ⌈((dim : ℚ) - 1) / 2⌉

/-- The claim's normalised column coordinate `u[j] = (j - center_col) / width`. -/
def specU (width j : Nat) : ℚ := ((j : ℚ) - specCenter width) / width

/-- The claim's normalised row coordinate `v[i] = (i - center_row) / height`. -/
def specV (height i : Nat) : ℚ := ((i : ℚ) - specCenter height) / height

/-- Modelled from the claim: the 2-D projection window
`win[i,j] = 1 + ratio * (u[j]^2 + v[i]^2)`. -/
def claimProjWindow (height width : Nat) (ratio : ℚ) : Arr2 :=
  ⟨height, width, fun i j => 1 + ratio * (specU width j ^ 2 + specV height i ^ 2)⟩

/-- Modelled from the claim: the row-invariant window
`win[i,j] = 1 + ratio * u[j]^2`. -/
def claimGenWindow (height width : Nat) (ratio : ℚ) : Arr2 :=
  ⟨height, width, fun _i j => 1 + ratio * specU width j ^ 2⟩

/-- Modelled from the claim: the reciprocal coordinate
`rc[k] = (2k - (n-1)) / (2*(n-1)*pixel_size)`. -/
def claimReciprocalCoord (pixel_size : ℚ) (n k : Nat) : ℚ :=
  (2 * (k : ℚ) - ((n : ℚ) - 1)) / (2 * ((n : ℚ) - 1) * pixel_size)

/-- Modelled from the claim: the per-axis pad amount of `retrieve_phase`
with `pad=true`,
`floor((2^ceil(log2(dim + ceil(pi*wavelength*distance/pixel_size^2))) - dim) / 2)`
with `wavelength = 2*pi*PLANCK_CONSTANT*SPEED_OF_LIGHT/energy`
(`ceil(log2 x)` written via `ceilLog2`). -/
def claimPadAmount (dim : Nat) (pixel_size dist energy : ℚ) : ℤ :=
  ⌊(((2 : ℚ) ^ ceilLog2 ((dim : ℚ) +
      ((⌈PI * (2 * PI * PLANCK_CONSTANT * SPEED_OF_LIGHT / energy)
          * dist / pixel_size ^ 2⌉ : ℤ) : ℚ)) - (dim : ℚ)) / 2)⌋

/-- A concrete oracle record used by the closed witness theorems: the
forward transforms embed the real array into the complex plane, the
inverse transforms are the identity, the scalar functions are the
identity, and padding replicates edges. -/
def trivOracles : FFTOracles :=
  ⟨fun a => ⟨a.h, a.w, fun i j => ⟨a.el i j, 0⟩⟩,
   fun a => a,
   fun a => ⟨a.h, a.w, fun i j => ⟨a.el i j, 0⟩⟩,
   fun a => a,
   fun x => x, fun x => x, fun x => x, fun x => x,
   fun _ a p q m i j => a.el m (eidx p a.h i) (eidx q a.w j)⟩

/-- Oracle record whose inverse transforms return the constant-one
array, used to exhibit the in-place mutation of `retrieve_phase` on an
explicit run. -/
def constOneOracles : FFTOracles :=
  ⟨fun a => ⟨a.h, a.w, fun i j => ⟨a.el i j, 0⟩⟩,
   fun a => ⟨a.h, a.w, fun _ _ => ⟨1, 0⟩⟩,
   fun a => ⟨a.h, a.w, fun i j => ⟨a.el i j, 0⟩⟩,
   fun a => ⟨a.h, a.w, fun _ _ => ⟨1, 0⟩⟩,
   fun x => x, fun x => x, fun x => x, fun x => x,
   fun _ a p q m i j => a.el m (eidx p a.h i) (eidx q a.w j)⟩

/-- The normalised phase filter used by `_retrieve_phase` when the pad
amounts are `py` and `pz`: the `fftshift`-ed filter factor over the
padded reciprocal grid, divided by its own maximum (lines 310-332). -/
def retrieveNpf (pixel_size dist energy alpha : ℚ) (h w : Nat) : Arr2 :=
  divRS
    (fftshift2 (_paganin_filter_factor energy dist alpha
      (_reciprocal_grid pixel_size h w)))
    (fftshift2 (_paganin_filter_factor energy dist alpha
      (_reciprocal_grid pixel_size h w))).maxVal

/-- Oracle record whose transform-filter-invert chain maps every
in-bounds-constant buffer to a constant output (as the genuine FFT chain
does): the forward transform embeds into the complex plane and the
inverse transform broadcasts the entry at `(0,0)`. -/
def constPropOracles : FFTOracles :=
  ⟨fun a => ⟨a.h, a.w, fun i j => ⟨a.el i j, 0⟩⟩,
   fun a => ⟨a.h, a.w, fun _ _ => a.el 0 0⟩,
   fun a => ⟨a.h, a.w, fun i j => ⟨a.el i j, 0⟩⟩,
   fun a => a,
   fun x => x, fun x => x, fun x => x, fun x => x,
   fun _ a p q m i j => a.el m (eidx p a.h i) (eidx q a.w j)⟩

/-- A concrete 1-image 2-by-2 stack (corner pixel 7, all others 3) used
by witness theorems. -/
def demoStack : Arr3 :=
  ⟨1, 2, 2, DType.float32, fun _ i j => if i = 1 ∧ j = 1 then 7 else 3⟩

/-! ### Claim theorems -/

/-- The ℚ-level sanitisation inside `paganinImage` agrees with the
float-level model on finite values, for either dtype. -/
theorem paganinSanitize_fin (dt : DType) (q : ℚ) :
    paganinSanitize dt (FloatVal.fin q)
      = FloatVal.fin (if q = 0 then 1 else q) := by
  by_cases h : q = 0 <;> simp [paganinSanitize, nan_to_num, zeroToOne, h]

/-- `1` is float32 representable. -/
theorem isF32_one : IsF32 1 :=
  Or.inr ⟨1, 0, by norm_num, one_ne_zero, by norm_num, by norm_num, by norm_num⟩

/-- The largest finite single is float32 representable. -/
theorem isF32_fmax : IsF32 FLOAT32_MAX :=
  Or.inr ⟨2 ^ 24 - 1, 104, by push_cast; norm_num [FLOAT32_MAX],
    by norm_num, by norm_num, by norm_num, by norm_num⟩

/-- The negated largest finite single is float32 representable. -/
theorem isF32_neg_fmax : IsF32 (-FLOAT32_MAX) :=
  Or.inr ⟨-(2 ^ 24 - 1), 104, by push_cast; norm_num [FLOAT32_MAX],
    by norm_num, by norm_num, by norm_num, by norm_num⟩

/-- A non-zero float32-representable value sits strictly between the
underflow and overflow thresholds of the float32 cast. -/
theorem isF32_in_range (q : ℚ) (hq : IsF32 q) (h0 : q ≠ 0) :
    F32_TINY < |q| ∧ |q| < F32_OVERFLOW := by
  rcases hq with h | ⟨m, e, rfl, hm0, hm, he1, he2⟩
  · exact absurd h h0
  · have h2e : (0 : ℚ) < (2 : ℚ) ^ e := zpow_pos (by norm_num : (0:ℚ) < 2) e
    have habs : |(m : ℚ) * (2 : ℚ) ^ e| = |(m : ℚ)| * (2 : ℚ) ^ e := by
      rw [abs_mul, abs_of_pos h2e]
    have hm1 : (1 : ℚ) ≤ |(m : ℚ)| := by exact_mod_cast Int.one_le_abs hm0
    have hmu : |(m : ℚ)| ≤ 2 ^ 24 - 1 := by
      have h3 : |m| ≤ 2 ^ 24 - 1 := by omega
      calc |(m : ℚ)| = ((|m| : ℤ) : ℚ) := by rw [Int.cast_abs]
        _ ≤ ((2 ^ 24 - 1 : ℤ) : ℚ) := by exact_mod_cast h3
        _ = 2 ^ 24 - 1 := by norm_num
    have hel : (2 : ℚ) ^ (-149 : ℤ) ≤ (2 : ℚ) ^ e :=
      zpow_le_zpow_right₀ (by norm_num) he1
    have heu : (2 : ℚ) ^ e ≤ (2 : ℚ) ^ (104 : ℤ) :=
      zpow_le_zpow_right₀ (by norm_num) he2
    constructor
    · rw [habs]
      calc F32_TINY < (2 : ℚ) ^ (-149 : ℤ) := by norm_num [F32_TINY]
        _ ≤ (2 : ℚ) ^ e := hel
        _ = 1 * (2 : ℚ) ^ e := (one_mul _).symm
        _ ≤ |(m : ℚ)| * (2 : ℚ) ^ e :=
            mul_le_mul_of_nonneg_right hm1 (le_of_lt h2e)
    · rw [habs]
      calc |(m : ℚ)| * (2 : ℚ) ^ e
          ≤ (2 ^ 24 - 1) * (2 : ℚ) ^ (104 : ℤ) :=
            mul_le_mul hmu heu (le_of_lt h2e) (by norm_num)
        _ < F32_OVERFLOW := by norm_num [F32_OVERFLOW]

/-- The float32 cast neither overflows nor underflows on a non-zero
representable value: it applies the rounding map. -/
theorem castF32_representable (round : ℚ → ℚ) (q : ℚ)
    (hq : IsF32 q) (h0 : q ≠ 0) :
    castF32 round (FloatVal.fin q) = FloatVal.fin (round q) := by
  obtain ⟨h1, h2⟩ := isF32_in_range q hq h0
  simp only [castF32]
  rw [if_neg (not_le.mpr h2), if_neg (not_le.mpr h1)]

/-- On a float64 array, the `+inf` replacement (the largest finite
double) overflows the subsequent float32 cast back to `+inf`. -/
theorem paganinPixel_pinf64 (round : ℚ → ℚ) :
    paganinPixel round DType.float64 FloatVal.pinf = FloatVal.pinf := by
  have hM : FLOAT64_MAX ≠ 0 := by norm_num [FLOAT64_MAX]
  have hMnn : (0 : ℚ) ≤ FLOAT64_MAX := by norm_num [FLOAT64_MAX]
  have hov : F32_OVERFLOW ≤ |FLOAT64_MAX| := by
    rw [abs_of_nonneg hMnn]
    norm_num [F32_OVERFLOW, FLOAT64_MAX]
  show castF32 round (zeroToOne (nan_to_num DType.float64 FloatVal.pinf))
    = FloatVal.pinf
  rw [show nan_to_num DType.float64 FloatVal.pinf = FloatVal.fin FLOAT64_MAX
      from rfl,
    show zeroToOne (FloatVal.fin FLOAT64_MAX) = FloatVal.fin FLOAT64_MAX
      from by simp [zeroToOne, hM]]
  simp only [castF32]
  rw [if_pos hov, if_pos hMnn]


/-- C7 counterexample: the Fresnel window builder compares the pattern
against the upper-case string `"PROJECTION"`, so at
`pattern = "projection"` (the string the claim names) it does **not**
build the claimed 2-D window: at `height = width = 2`, `ratio = 1` the
code yields `5/4` at index `(0,0)` while the claimed 2-D formula
yields `3/2`. -/
theorem fresnel_window_lowercase_cex :
    (_make_window 2 2 1 "projection").el 0 0 = 5 / 4 ∧
    (claimProjWindow 2 2 1).el 0 0 = 3 / 2 ∧
    (_make_window 2 2 1 "projection").el 0 0 ≠ (claimProjWindow 2 2 1).el 0 0 := by
  have hne : ¬("projection" = "PROJECTION") := by decide
  have hhalf : (⌈(1 : ℚ) / 2⌉ : ℤ) = 1 := Int.ceil_eq_iff.mpr (by norm_num)
  refine ⟨?_, ?_, ?_⟩
  · simp only [_make_window, if_neg hne]
    norm_num [hhalf]
  · simp only [claimProjWindow, specU, specV, specCenter]
    norm_num [hhalf]
  · simp only [_make_window, claimProjWindow, if_neg hne, specU, specV, specCenter]
    norm_num [hhalf]

/-- C7 (amended: the projection comparison is against the case-sensitive
string `"PROJECTION"`): for `pattern = "PROJECTION"` the window is the
2-D formula `1 + ratio*(u[j]^2 + v[i]^2)` with centres
`ceil((dim-1)/2)`; for every other pattern it is the tiled 1-D window
`1 + ratio*u[j]^2`, identical across all rows. -/
theorem fresnel_window_pattern (height width : Nat) (ratio : ℚ) (pattern : String) :
    (pattern = "PROJECTION" →
      _make_window height width ratio pattern = claimProjWindow height width ratio) ∧
    (pattern ≠ "PROJECTION" →
      _make_window height width ratio pattern = claimGenWindow height width ratio ∧
      ∀ i i2 j, (_make_window height width ratio pattern).el i j
        = (_make_window height width ratio pattern).el i2 j) := by
  have hc : ∀ dim : Nat, (⌈((dim : ℚ) - 1) * (1 / 2)⌉ : ℤ) = ⌈((dim : ℚ) - 1) / 2⌉ := by
    intro dim
    rw [mul_one_div]
  constructor
  · intro h
    simp only [_make_window, h, if_pos, claimProjWindow, specU, specV, specCenter, hc]
  · intro h
    constructor
    · simp only [_make_window, if_neg h, claimGenWindow, specU, specCenter, hc]
    · intro i i2 j
      simp only [_make_window, if_neg h]

/-- C7 witness: the theorem applied at concrete inputs on both sides of
the pattern test. -/
theorem fresnel_window_pattern_witness :
    (_make_window 3 4 2 "PROJECTION" = claimProjWindow 3 4 2) ∧
    (_make_window 3 4 2 "SINOGRAM" = claimGenWindow 3 4 2) := by
  exact ⟨(fresnel_window_pattern 3 4 2 "PROJECTION").1 rfl,
    ((fresnel_window_pattern 3 4 2 "SINOGRAM").2 (by decide)).1⟩

/-- C6 counterexample: the claim says every non-finite pixel is replaced
by zero (hence, after the zero replacement, by `1.0`); but on a float64
image `cp.nan_to_num` replaces `+inf` by the largest finite double,
which the float32 cast before `fft2` overflows back to `+inf`, so the
pixel reaches the transform as `+inf`, not `1.0`. -/
theorem paganin_sanitize_inf_cex :
    nan_to_num DType.float64 FloatVal.pinf = FloatVal.fin FLOAT64_MAX ∧
    FloatVal.fin FLOAT64_MAX ≠ FloatVal.fin 0 ∧
    paganinPixel id DType.float64 FloatVal.pinf = FloatVal.pinf ∧
    FloatVal.pinf ≠ FloatVal.fin 1 := by
  refine ⟨rfl, ?_, paganinPixel_pinf64 id, by decide⟩
  simp only [ne_eq, FloatVal.fin.injEq, FLOAT64_MAX]
  norm_num

/-- C6 (amended: non-finite values are replaced per `cp.nan_to_num` ---
NaN by `0.0`, `±inf` by the input dtype's largest finite value --- exact
zeros then by `1.0`, and the image is cast to float32 before the forward
transform; for a float32 input the value entering the transform is
finite and non-zero, but for a float64 input an `±inf` pixel re-emerges
as `±inf` from the cast and a small enough positive pixel underflows the
cast to an exact zero). -/
theorem paganin_sanitize (dt : DType) (x : FloatVal) (round : ℚ → ℚ)
    (hround : ∀ q : ℚ, IsF32 q → round q = q) :
    (nan_to_num dt FloatVal.nan = FloatVal.fin 0 ∧
     nan_to_num dt FloatVal.pinf = FloatVal.fin (dtypeMax dt) ∧
     nan_to_num dt FloatVal.ninf = FloatVal.fin (-(dtypeMax dt)) ∧
     (∀ q : ℚ, nan_to_num dt (FloatVal.fin q) = FloatVal.fin q)) ∧
    (dt = DType.float32 → IsF32Val x →
      ∃ q : ℚ, paganinPixel round dt x = FloatVal.fin q ∧ q ≠ 0) ∧
    paganinPixel round DType.float64 FloatVal.pinf = FloatVal.pinf ∧
    (∀ q : ℚ, 0 < q → q ≤ F32_TINY →
      paganinPixel round DType.float64 (FloatVal.fin q) = FloatVal.fin 0) := by
  have hone : castF32 round (FloatVal.fin 1) = FloatVal.fin 1 := by
    rw [castF32_representable round 1 isF32_one one_ne_zero, hround 1 isF32_one]
  have hfm : FLOAT32_MAX ≠ 0 := by norm_num [FLOAT32_MAX]
  have hfm2 : -FLOAT32_MAX ≠ 0 := by norm_num [FLOAT32_MAX]
  refine ⟨⟨rfl, rfl, rfl, fun _ => rfl⟩, ?_, paganinPixel_pinf64 round, ?_⟩
  · rintro rfl hx
    cases x with
    | fin q =>
      have hq : IsF32 q := hx
      by_cases h0 : q = 0
      · subst h0
        refine ⟨1, ?_, one_ne_zero⟩
        show castF32 round (zeroToOne (FloatVal.fin 0)) = FloatVal.fin 1
        rw [show zeroToOne (FloatVal.fin 0) = FloatVal.fin 1 from by
          simp [zeroToOne]]
        exact hone
      · refine ⟨round q, ?_, ?_⟩
        · show castF32 round (zeroToOne (FloatVal.fin q)) = _
          rw [show zeroToOne (FloatVal.fin q) = FloatVal.fin q from by
            simp [zeroToOne, h0]]
          exact castF32_representable round q hq h0
        · rw [hround q hq]; exact h0
    | nan =>
      refine ⟨1, ?_, one_ne_zero⟩
      show castF32 round (zeroToOne (FloatVal.fin 0)) = FloatVal.fin 1
      rw [show zeroToOne (FloatVal.fin 0) = FloatVal.fin 1 from by
        simp [zeroToOne]]
      exact hone
    | pinf =>
      refine ⟨FLOAT32_MAX, ?_, hfm⟩
      show castF32 round (zeroToOne (FloatVal.fin FLOAT32_MAX)) = _
      rw [show zeroToOne (FloatVal.fin FLOAT32_MAX)
            = FloatVal.fin FLOAT32_MAX from by simp [zeroToOne, hfm]]
      rw [castF32_representable round FLOAT32_MAX isF32_fmax hfm,
        hround FLOAT32_MAX isF32_fmax]
    | ninf =>
      refine ⟨-FLOAT32_MAX, ?_, hfm2⟩
      show castF32 round (zeroToOne (FloatVal.fin (-FLOAT32_MAX))) = _
      rw [show zeroToOne (FloatVal.fin (-FLOAT32_MAX))
            = FloatVal.fin (-FLOAT32_MAX) from by simp [zeroToOne, hfm2]]
      rw [castF32_representable round (-FLOAT32_MAX) isF32_neg_fmax hfm2,
        hround (-FLOAT32_MAX) isF32_neg_fmax]
  · intro q h0 htiny
    have habs : |q| = q := abs_of_pos h0
    have hno : ¬ F32_OVERFLOW ≤ |q| := by
      rw [habs]
      intro hc
      have hcontra : F32_OVERFLOW ≤ F32_TINY := le_trans hc htiny
      norm_num [F32_OVERFLOW, F32_TINY] at hcontra
    have hyes : |q| ≤ F32_TINY := by rw [habs]; exact htiny
    show castF32 round (zeroToOne (FloatVal.fin q)) = FloatVal.fin 0
    rw [show zeroToOne (FloatVal.fin q) = FloatVal.fin q from by
      simp [zeroToOne, h0.ne.symm]]
    simp only [castF32]
    rw [if_neg hno, if_pos hyes]

/-- C6 witness: the amended theorem at `dt = float32`, `x = +inf`,
`round = id` (valid since the identity certainly fixes representable
values), and at `dt = float64`, `x = +inf`. -/
theorem paganin_sanitize_witness :
    (∃ q : ℚ, paganinPixel id DType.float32 FloatVal.pinf
        = FloatVal.fin q ∧ q ≠ 0) ∧
    paganinPixel id DType.float64 FloatVal.pinf = FloatVal.pinf :=
  ⟨(paganin_sanitize DType.float32 FloatVal.pinf id
      (fun _ _ => rfl)).2.1 rfl trivial,
   (paganin_sanitize DType.float64 FloatVal.pinf id
      (fun _ _ => rfl)).2.2.1⟩

/-- On an axis of length `n ≥ 1`, `cp.arange(-(n-1), n, 2)` has exactly
`n` entries, so `_reciprocal_coord` produces `n` coordinates. -/
theorem reciprocal_coord_len (ps : ℚ) (n : Nat) (hn : 1 ≤ n) :
    (_reciprocal_coord ps n).n = n := by
  have hcast : ((n - 1 : ℕ) : ℚ) = (n : ℚ) - 1 := by
    rw [Nat.cast_sub hn, Nat.cast_one]
  unfold _reciprocal_coord cparange
  simp only [hcast]
  have h2 : ((n : ℚ) - -((n : ℚ) - 1)) / 2 = -1 / 2 + ((n : ℤ) : ℚ) := by
    push_cast
    ring
  rw [h2, Int.ceil_add_int,
    show ⌈(-1 : ℚ) / 2⌉ = 0 from Int.ceil_eq_iff.mpr (by norm_num)]
  simp

/-- Entry `k` of `_reciprocal_coord` equals the claimed closed form
`(2k - (n-1)) / (2*(n-1)*pixel_size)`. -/
theorem reciprocal_coord_el (ps : ℚ) (n k : Nat) (hps : ps ≠ 0) (hn : 2 ≤ n) :
    (_reciprocal_coord ps n).el k = claimReciprocalCoord ps n k := by
  have hcast : ((n - 1 : ℕ) : ℚ) = (n : ℚ) - 1 := by
    rw [Nat.cast_sub (by omega), Nat.cast_one]
  have hne : (n : ℚ) - 1 ≠ 0 := by
    have h2 : (2 : ℚ) ≤ (n : ℚ) := by exact_mod_cast hn
    linarith
  unfold _reciprocal_coord cparange claimReciprocalCoord
  simp only [hcast]
  field_simp
  ring

/-- C8: for `pixel_size > 0` and axis lengths at least 2, the reciprocal
coordinate builder yields exactly `n` values with
`rc[k] = (2k - (n-1)) / (2*(n-1)*pixel_size)`, and the 2-D grid is the
outer sum of squares, `grid[i,j] = rc_x[i]^2 + rc_y[j]^2`. -/
theorem reciprocal_grid_formula (ps : ℚ) (n nx ny : Nat)
    (hps : 0 < ps) (hn : 2 ≤ n) (hnx : 2 ≤ nx) (hny : 2 ≤ ny) :
    ((_reciprocal_coord ps n).n = n ∧
      ∀ k, k < n → (_reciprocal_coord ps n).el k = claimReciprocalCoord ps n k) ∧
    ((_reciprocal_grid ps nx ny).h = nx ∧ (_reciprocal_grid ps nx ny).w = ny ∧
      ∀ i j, i < nx → j < ny → (_reciprocal_grid ps nx ny).el i j
        = claimReciprocalCoord ps nx i ^ 2 + claimReciprocalCoord ps ny j ^ 2) := by
  refine ⟨⟨reciprocal_coord_len ps n (by omega),
    fun k _ => reciprocal_coord_el ps n k (ne_of_gt hps) hn⟩,
    ?_, ?_, fun i j _ _ => ?_⟩
  · exact reciprocal_coord_len ps nx (by omega)
  · exact reciprocal_coord_len ps ny (by omega)
  · show (_reciprocal_coord ps nx).el i ^ 2 + (_reciprocal_coord ps ny).el j ^ 2 = _
    rw [reciprocal_coord_el ps nx i (ne_of_gt hps) hnx,
      reciprocal_coord_el ps ny j (ne_of_gt hps) hny]

/-- C8 witness: the theorem applied at `pixel_size = 1`, axes 2 and 3. -/
theorem reciprocal_grid_formula_witness :
    (0 : ℚ) < 1 ∧
    (((_reciprocal_coord 1 2).n = 2 ∧
        ∀ k, k < 2 → (_reciprocal_coord 1 2).el k = claimReciprocalCoord 1 2 k) ∧
      ((_reciprocal_grid 1 2 3).h = 2 ∧ (_reciprocal_grid 1 2 3).w = 3 ∧
        ∀ i j, i < 2 → j < 3 → (_reciprocal_grid 1 2 3).el i j
          = claimReciprocalCoord 1 2 i ^ 2 + claimReciprocalCoord 1 3 j ^ 2)) :=
  ⟨by norm_num, reciprocal_grid_formula 1 2 2 3 (by norm_num) (by omega) (by omega) (by omega)⟩

/-- `ceilLog2` really is the ceiling of the base-2 logarithm on the
positive integers: `2 ^ ceilLog2 m` is the least power of two at least `m`. -/
theorem ceilLog2_natCast_spec (m : Nat) (_hm : 1 ≤ m) :
    m ≤ 2 ^ ceilLog2 (m : ℚ) ∧ ∀ t, m ≤ 2 ^ t → ceilLog2 (m : ℚ) ≤ t := by
  have hc : ceilLog2 (m : ℚ) = Nat.clog 2 m := by
    unfold ceilLog2
    rw [Int.ceil_natCast, Int.toNat_natCast]
  rw [hc]
  exact ⟨Nat.le_pow_clog (by omega) m,
    fun t ht => (Nat.le_pow_iff_clog_le (by omega)).mp ht⟩

/-- Core of C9: `_calc_pad_width` computes exactly the claimed
`floor((2^ceil(log2(dim + ceil(PI*wavelength*dist/pixel_size^2))) - dim)/2)`,
and that quantity is non-negative. -/
theorem calc_pad_width_eq (dim : Nat) (ps dist energy : ℚ)
    (hps : 0 < ps) (hdist : 0 < dist) (hen : 0 < energy) :
    ((_calc_pad_width dim ps (_wavelength energy) dist : ℕ) : ℤ)
        = claimPadAmount dim ps dist energy ∧
      0 ≤ claimPadAmount dim ps dist energy := by
  have hwl : 0 < _wavelength energy := by
    unfold _wavelength PI PLANCK_CONSTANT SPEED_OF_LIGHT
    positivity
  have harg : 0 < PI * _wavelength energy * dist / ps ^ 2 := by
    have hpi : 0 < PI := by unfold PI; norm_num
    positivity
  have hpp : (1 : ℤ) ≤ ⌈PI * _wavelength energy * dist / ps ^ 2⌉ := by
    have := Int.ceil_pos.mpr harg
    omega
  -- the argument of ceilLog2 is the integer `dim + pad_pix`
  have hargint : (dim : ℚ) + ((⌈PI * _wavelength energy * dist / ps ^ 2⌉ : ℤ) : ℚ)
      = (((dim : ℤ) + ⌈PI * _wavelength energy * dist / ps ^ 2⌉ : ℤ) : ℚ) := by
    push_cast
    ring
  set pp : ℤ := ⌈PI * _wavelength energy * dist / ps ^ 2⌉ with hpdef
  set k : Nat := ceilLog2 ((dim : ℚ) + (pp : ℚ)) with hkdef
  have hk2 : k = Nat.clog 2 (Int.toNat ((dim : ℤ) + pp)) := by
    rw [hkdef, hargint]
    unfold ceilLog2
    rw [Int.ceil_intCast]
  have hdimle : (dim : ℤ) ≤ 2 ^ k := by
    have h1 : Int.toNat ((dim : ℤ) + pp) ≤ 2 ^ k := by
      rw [hk2]
      exact Nat.le_pow_clog (by omega) _
    have h2 : (dim : ℤ) + pp ≤ ((2 ^ k : ℕ) : ℤ) := by
      omega
    push_cast at h2
    omega
  have hfl : ⌊((2 : ℚ) ^ k - (dim : ℚ)) / 2⌋ = ((2 : ℤ) ^ k - (dim : ℤ)) / 2 := by
    rw [show ((2 : ℚ) ^ k - (dim : ℚ)) = (((2 : ℤ) ^ k - (dim : ℤ) : ℤ) : ℚ) by
          push_cast; ring,
      show (2 : ℚ) = ((2 : ℕ) : ℚ) by norm_num]
    exact Rat.floor_intCast_div_natCast _ 2
  have hweq : _wavelength energy
      = 2 * PI * PLANCK_CONSTANT * SPEED_OF_LIGHT / energy := rfl
  have hclaim : claimPadAmount dim ps dist energy = ((2 : ℤ) ^ k - (dim : ℤ)) / 2 := by
    unfold claimPadAmount
    rw [← hfl, ← hweq, ← hpdef, ← hkdef]
  have hnum : (0 : ℤ) ≤ 2 ^ k - dim := by omega
  have hq : (0 : ℤ) ≤ ((2 : ℤ) ^ k - (dim : ℤ)) / 2 := Int.ediv_nonneg hnum (by omega)
  constructor
  · rw [hclaim]
    unfold _calc_pad_width
    rw [← hpdef, ← hkdef, Int.toNat_of_nonneg hq]
  · rw [hclaim]
    exact hq

/-- C9: in `retrieve_phase` with `pad=true`, the per-axis pad amounts
returned by `_calc_pad` are exactly
`floor((2^ceil(log2(dim + ceil(PI*wavelength*distance/pixel_size^2))) - dim)/2)`
with `wavelength = 2*PI*PLANCK_CONSTANT*SPEED_OF_LIGHT/energy`, and each
is a non-negative integer. -/
theorem retrieve_pad_amount (tomo : Arr3) (ps dist energy : ℚ)
    (hps : 0 < ps) (hdist : 0 < dist) (hen : 0 < energy) :
    _calc_pad tomo ps dist energy true
      = (Int.toNat (claimPadAmount tomo.h ps dist energy),
         Int.toNat (claimPadAmount tomo.w ps dist energy),
         _calc_pad_val tomo) ∧
    0 ≤ claimPadAmount tomo.h ps dist energy ∧
    0 ≤ claimPadAmount tomo.w ps dist energy := by
  obtain ⟨hh1, hh2⟩ := calc_pad_width_eq tomo.h ps dist energy hps hdist hen
  obtain ⟨hw1, hw2⟩ := calc_pad_width_eq tomo.w ps dist energy hps hdist hen
  refine ⟨?_, hh2, hw2⟩
  unfold _calc_pad
  simp only [if_pos]
  have eh : _calc_pad_width tomo.h ps (_wavelength energy) dist
      = Int.toNat (claimPadAmount tomo.h ps dist energy) := by
    omega
  have ew : _calc_pad_width tomo.w ps (_wavelength energy) dist
      = Int.toNat (claimPadAmount tomo.w ps dist energy) := by
    omega
  rw [eh, ew]

/-- C9 witness: the theorem applied to a concrete 1-image 2-by-2 stack
with unit physical parameters. -/
theorem retrieve_pad_amount_witness :
    (0 : ℚ) < 1 ∧
    (_calc_pad ⟨1, 2, 2, DType.float32, fun _ _ _ => 0⟩ 1 1 1 true
      = (Int.toNat (claimPadAmount 2 1 1 1), Int.toNat (claimPadAmount 2 1 1 1),
         _calc_pad_val ⟨1, 2, 2, DType.float32, fun _ _ _ => 0⟩) ∧
     0 ≤ claimPadAmount 2 1 1 1 ∧ 0 ≤ claimPadAmount 2 1 1 1) :=
  ⟨by norm_num,
    retrieve_pad_amount ⟨1, 2, 2, DType.float32, fun _ _ _ => 0⟩ 1 1 1
      (by norm_num) (by norm_num) (by norm_num)⟩

/-! ### Shape and dtype lemmas for the three cores -/

lemma fresnelFinish_fields (O : FFTOracles) (al : Bool) (r : Arr3) :
    (fresnelFinish O al r).d = r.d ∧ (fresnelFinish O al r).h = r.h ∧
    (fresnelFinish O al r).w = r.w ∧
    (fresnelFinish O al r).dt = DType.float32 := by
  cases al <;> exact ⟨rfl, rfl, rfl, rfl⟩

lemma fresnel_core_dt_of_ok (O : FFTOracles) (m : Arr3) (pattern : String)
    (ratio : ℚ) (al : Bool) (r : Arr3)
    (h : fresnel_core O m pattern ratio al = Except.ok r) :
    r.dt = DType.float32 := by
  unfold fresnel_core at h
  cases hres : fresnelRes O (if al then m.map (fun x => -(O.rlog x)) else m)
      pattern ratio with
  | error e =>
    rw [hres] at h
    exact absurd h (by simp [Except.map])
  | ok v =>
    rw [hres] at h
    simp only [Except.map] at h
    rw [← Except.ok.inj h]
    exact (fresnelFinish_fields O al v).2.2.2

lemma paganin_core_shape (O : FFTOracles) (m : Arr3)
    (ratio energy distance resolution : ℚ) (pad_y pad_x : Nat)
    (pad_method : String) (increment : ℚ) :
    (paganin_core O m ratio energy distance resolution pad_y pad_x
        pad_method increment).d = m.d ∧
    (paganin_core O m ratio energy distance resolution pad_y pad_x
        pad_method increment).h = m.h ∧
    (paganin_core O m ratio energy distance resolution pad_y pad_x
        pad_method increment).w = m.w ∧
    (paganin_core O m ratio energy distance resolution pad_y pad_x
        pad_method increment).dt = DType.float32 := by
  unfold paganin_core
  exact ⟨rfl, rfl, rfl, rfl⟩

lemma retrieve_core_shape (O : FFTOracles) (m : Arr3)
    (pixel_size dist energy alpha : ℚ) (pad : Bool) :
    (retrieve_core O m pixel_size dist energy alpha pad).d = m.d ∧
    (retrieve_core O m pixel_size dist energy alpha pad).h = m.h ∧
    (retrieve_core O m pixel_size dist energy alpha pad).w = m.w ∧
    (retrieve_core O m pixel_size dist energy alpha pad).dt = m.dt := by
  unfold retrieve_core _retrieve_phase
  exact ⟨rfl, rfl, rfl, rfl⟩

/-! ### Validation and promotion lemmas -/

lemma promoteRank_shape3 (a : NDArr) (d x y : Nat) (h : a.shape = [d, x, y]) :
    promoteRank a = a ∧ (promoteRank a).shape = [d, x, y] := by
  have hl : ¬(a.shape.length = 2) := by rw [h]; simp
  have he : promoteRank a = a := by
    unfold promoteRank
    rw [if_neg hl]
  exact ⟨he, by rw [he, h]⟩

lemma promoteRank_dt (a : NDArr) : (promoteRank a).dt = a.dt := by
  unfold promoteRank NDArr.expandDims0
  split <;> rfl

lemma toArr3_fields (a : NDArr) (d h w : Nat) (hs : a.shape = [d, h, w]) :
    a.toArr3.d = d ∧ a.toArr3.h = h ∧ a.toArr3.w = w ∧ a.toArr3.dt = a.dt := by
  unfold NDArr.toArr3
  rw [hs]
  exact ⟨rfl, rfl, rfl, rfl⟩

lemma fresnel_filter_run (O : FFTOracles) (a : NDArr) (pattern : String)
    (ratio : ℚ) (al : Bool) (h : (promoteRank a).shape.length = 3) :
    fresnel_filter O a pattern ratio al
      = fresnel_core O (promoteRank a).toArr3 pattern ratio al := by
  unfold fresnel_filter
  rw [if_neg (by omega)]

/-- The dtype of `NDArr.toArr3` is the array's own dtype, whatever the
shape. -/
lemma toArr3_dt (a : NDArr) : a.toArr3.dt = a.dt := by
  unfold NDArr.toArr3
  split <;> rfl

/-- C3 counterexample: `retrieve_phase` returns the mutated input stack
itself (`return tomo`), so a double-precision input yields a
double-precision output, contradicting the claim that every filter
returns single precision.  (The 2-by-2 images keep the scalar
reciprocal-coordinate divisor `(num_grid - 1) * pixel_size` of the code
non-zero --- the first conjunct records that the checked division
succeeds --- so the real call completes normally.) -/
theorem retrieve_dtype_cex :
    _reciprocal_coord_checked 1 2 = Except.ok (_reciprocal_coord 1 2) ∧
    ∃ r, retrieve_phase trivOracles ⟨[1, 2, 2], DType.float64, fun _ => 0⟩
        1 1 1 1 false = Except.ok r ∧
      r.dt = DType.float64 ∧ r.dt ≠ DType.float32 := by
  refine ⟨?_, _, rfl, rfl, by decide⟩
  unfold _reciprocal_coord_checked
  rw [if_neg (by norm_num)]

/-- C3 (amended: `fresnel_filter` and `paganin_filter` always return
single-precision stacks, but `retrieve_phase` returns a stack of the
promoted input's dtype, so its output is single-precision only when its
input is). -/
theorem dtype_contract (O : FFTOracles) (a : NDArr)
    (pattern pad_method : String)
    (ratio energy distance resolution increment pixel_size dist energy2 alpha : ℚ)
    (apply_log : Bool) (pad_y pad_x : Nat) (pad : Bool) :
    (∀ r, fresnel_filter O a pattern ratio apply_log = Except.ok r →
      r.dt = DType.float32) ∧
    (∀ r, paganin_filter O a ratio energy distance resolution pad_y pad_x
        pad_method increment = Except.ok r → r.dt = DType.float32) ∧
    (∀ r, retrieve_phase O a pixel_size dist energy2 alpha pad = Except.ok r →
      r.dt = a.dt) := by
  refine ⟨?_, ?_, ?_⟩
  · intro r h
    unfold fresnel_filter at h
    split at h
    · exact absurd h (by simp)
    · exact fresnel_core_dt_of_ok O (promoteRank a).toArr3 pattern ratio
        apply_log r h
  · intro r h
    unfold paganin_filter at h
    split at h
    · exact absurd h (by simp)
    · rw [← Except.ok.inj h]
      exact (paganin_core_shape O _ ratio energy distance resolution pad_y
        pad_x pad_method increment).2.2.2
  · intro r h
    unfold retrieve_phase at h
    split at h
    · exact absurd h (by simp)
    · rw [← Except.ok.inj h]
      rw [(retrieve_core_shape O _ pixel_size dist energy2 alpha pad).2.2.2,
        toArr3_dt, promoteRank_dt]

/-- C3 witness: on a double-precision input, the Fresnel output is
single-precision while the retrieval output keeps double precision (the
witness inputs avoid both runtime errors: a sinogram-mode Fresnel call
and 2-by-2 retrieval images). -/
theorem dtype_contract_witness :
    (∃ r, fresnel_filter trivOracles ⟨[1, 2, 2], DType.float64, fun _ => 0⟩
        "SINOGRAM" 1 true = Except.ok r ∧ r.dt = DType.float32) ∧
    (∃ r, retrieve_phase trivOracles ⟨[1, 2, 2], DType.float64, fun _ => 0⟩
        1 1 50 1 false = Except.ok r ∧ r.dt = DType.float64) :=
  ⟨⟨_, rfl, (dtype_contract trivOracles ⟨[1, 2, 2], DType.float64, fun _ => 0⟩
      "SINOGRAM" "edge" 1 53 1 (32 / 25) 0 1 1 50 1 true 100 100 false).1
      _ rfl⟩,
   ⟨_, rfl, (dtype_contract trivOracles ⟨[1, 2, 2], DType.float64, fun _ => 0⟩
      "SINOGRAM" "edge" 1 53 1 (32 / 25) 0 1 1 50 1 true 100 100 false).2.2
      _ rfl⟩⟩

/-- C4 counterexample: a concrete `retrieve_phase` run on a 1-image
2-by-2 stack after which the caller's buffer (the second component of
`retrieve_call`) no longer holds the original pixel at `(0,0,0)` --- the
call mutates the caller-owned input, so it is not a pure function that
leaves its input unchanged. -/
theorem retrieve_mutation_cex :
    (retrieve_call constOneOracles
        ⟨1, 2, 2, DType.float32, fun _ i j => if i = 0 ∧ j = 0 then 0 else 5⟩
        1 1 1 1 false).2.el 0 0 0 = 1 ∧
    (⟨1, 2, 2, DType.float32, fun _ i j => if i = 0 ∧ j = 0 then 0 else 5⟩ :
        Arr3).el 0 0 0 = 0 ∧
    (1 : ℚ) ≠ 0 ∧
    (retrieve_call constOneOracles
        ⟨1, 2, 2, DType.float32, fun _ i j => if i = 0 ∧ j = 0 then 0 else 5⟩
        1 1 1 1 false).2
      ≠ (⟨1, 2, 2, DType.float32, fun _ i j => if i = 0 ∧ j = 0 then 0 else 5⟩ :
          Arr3) := by
  have h1 : (retrieve_call constOneOracles
      ⟨1, 2, 2, DType.float32, fun _ i j => if i = 0 ∧ j = 0 then 0 else 5⟩
      1 1 1 1 false).2.el 0 0 0 = 1 := rfl
  have h2 : (⟨1, 2, 2, DType.float32, fun _ i j => if i = 0 ∧ j = 0 then 0 else 5⟩ :
      Arr3).el 0 0 0 = 0 := rfl
  refine ⟨h1, h2, one_ne_zero, fun hcontra => ?_⟩
  have h3 := congrArg (fun s : Arr3 => s.el 0 0 0) hcontra
  dsimp only at h3
  norm_num at h3
  rw [h1] at h3
  exact one_ne_zero h3

/-- C4 (amended: `fresnel_filter` and `paganin_filter` never write into
the caller's buffer, so for them the call is pure and the input is
unchanged; `retrieve_phase` however writes every filtered image into the
caller's buffer and returns that very buffer, so its input does not
survive the call). -/
theorem call_buffer_semantics (O : FFTOracles) (mat : Arr3)
    (pattern pad_method : String)
    (ratio energy distance resolution increment pixel_size dist energy2 alpha : ℚ)
    (apply_log : Bool) (pad_y pad_x : Nat) (pad : Bool) :
    (fresnel_call O mat pattern ratio apply_log).2 = mat ∧
    (paganin_call O mat ratio energy distance resolution pad_y pad_x
        pad_method increment).2 = mat ∧
    (retrieve_call O mat pixel_size dist energy2 alpha pad).2
      = (retrieve_call O mat pixel_size dist energy2 alpha pad).1 :=
  ⟨rfl, rfl, rfl⟩

/-- With zero pad amounts, the Python slices `prj[-0:]` and `prj[:, -0:]`
cover the whole buffer, so after the four border-replication statements
every in-bounds cell of the working buffer holds the image's
bottom-right corner pixel. -/
lemma rpPrj_pad0 (tomo : Arr3) (m : Nat) (v : ℚ)
    (hh : 1 ≤ tomo.h) (hw : 1 ≤ tomo.w) (i j : Nat)
    (hi : i < tomo.h) (hj : j < tomo.w) :
    (rpPrj tomo m 0 0 ⟨tomo.h, tomo.w, fun _ _ => v⟩).el i j
      = tomo.el m (tomo.h - 1) (tomo.w - 1) := by
  have hh1 : tomo.h - 1 < tomo.h := by omega
  have hw1 : tomo.w - 1 < tomo.w := by omega
  simp [rpPrj, Arr2.setRect, negSliceStart, hi, hj, hh1, hw1]

/-- C5: with `pad=false` both pad amounts are zero, so the Python slices
`prj[-0:]` and `prj[:, -0:]` denote the whole working buffer: before the
forward transform every in-bounds pixel holds the image's bottom-right
corner value (the last-row overwrite followed by the last-column
overwrite), and consequently (for any transform chain that maps
in-bounds-constant buffers to constants, as the genuine FFT chain does)
every output image of `retrieve_phase` is spatially constant, equal to
the filtered constant obtained from that corner pixel. -/
theorem retrieve_pad_false_constant (O : FFTOracles) (tomo : Arr3)
    (ps dist energy alpha : ℚ) (hh : 1 ≤ tomo.h) (hw : 1 ≤ tomo.w)
    (hconst : ∀ (A : Arr2) (c : ℚ),
      (∀ i j, i < A.h → j < A.w → A.el i j = c) →
      ∀ i j, i < A.h → j < A.w →
        (rpStep O (retrieveNpf ps dist energy alpha tomo.h tomo.w) A).el i j
          = (rpStep O (retrieveNpf ps dist energy alpha tomo.h tomo.w)
              ⟨A.h, A.w, fun _ _ => c⟩).el 0 0) :
    ∀ m i j, i < tomo.h → j < tomo.w →
      (rpPrj tomo m 0 0 ⟨tomo.h, tomo.w, fun _ _ => 0⟩).el i j
          = tomo.el m (tomo.h - 1) (tomo.w - 1) ∧
      (m < tomo.d →
        (retrieve_core O tomo ps dist energy alpha false).el m i j
          = (rpStep O (retrieveNpf ps dist energy alpha tomo.h tomo.w)
              ⟨tomo.h, tomo.w, fun _ _ =>
                tomo.el m (tomo.h - 1) (tomo.w - 1)⟩).el 0 0) := by
  intro m i j hi hj
  refine ⟨rpPrj_pad0 tomo m 0 hh hw i j hi hj, fun hm => ?_⟩
  have hcore : (retrieve_core O tomo ps dist energy alpha false).el m i j
      = (rpStep O (retrieveNpf ps dist energy alpha tomo.h tomo.w)
          (rpPrj tomo m 0 0 ⟨tomo.h, tomo.w, fun _ _ => 0⟩)).el i j := by
    simp [retrieve_core, _calc_pad, _retrieve_phase, retrieveNpf, hm, hi, hj]
  rw [hcore]
  exact hconst (rpPrj tomo m 0 0 ⟨tomo.h, tomo.w, fun _ _ => 0⟩)
    (tomo.el m (tomo.h - 1) (tomo.w - 1))
    (fun i2 j2 hi2 hj2 => rpPrj_pad0 tomo m 0 hh hw i2 j2 hi2 hj2) i j hi hj

/-- C5 witness: the theorem applied to `demoStack` with the
constant-propagating oracles, at image 0, pixel (0,0). -/
theorem retrieve_pad_false_constant_witness :
    (rpPrj demoStack 0 0 0 ⟨2, 2, fun _ _ => 0⟩).el 0 0
        = demoStack.el 0 1 1 ∧
    (0 < 1 →
      (retrieve_core constPropOracles demoStack 1 1 1 1 false).el 0 0 0
        = (rpStep constPropOracles (retrieveNpf 1 1 1 1 2 2)
            ⟨2, 2, fun _ _ => demoStack.el 0 1 1⟩).el 0 0) :=
  retrieve_pad_false_constant constPropOracles demoStack 1 1 1 1
    (by decide) (by decide)
    (by
      intro A c hA i j hi hj
      have h0 : A.el 0 0 = c := hA 0 0 (by omega) (by omega)
      simp [rpStep, constPropOracles, mulCR, Arr2C.re, QC.mulR, h0])
    0 0 0 (by decide) (by decide)

/-- Reading out the elements of `toArr3` on a rank-3 array. -/
lemma toArr3_el (a : NDArr) (d h w : Nat) (hs : a.shape = [d, h, w]) :
    ∀ m i j, a.toArr3.el m i j = a.el [m, i, j] := by
  intro m i j
  unfold NDArr.toArr3
  simp only [hs]

/-- The padded image the `"PROJECTION"` branch feeds to the transforms
reads only rows 10 and below of the original image (also through the
empty-axis check, which depends only on the shapes), so two equal-shape
stacks that agree from row 10 on produce the same per-image filter
result. -/
lemma fresnelProjImage_congr (O : FFTOracles) (window : Arr2)
    (pw nrow ncol k : Nat) (A B : Arr3) (hh : A.h = B.h) (hw : A.w = B.w)
    (hag : ∀ i j, 10 ≤ i → A.el k i j = B.el k i j) :
    fresnelProjImage O A window pw nrow ncol k
      = fresnelProjImage O B window pw nrow ncol k := by
  have hmat : ((A.img k).dropRows 10).padEdge (pw + 10) pw pw pw
      = ((B.img k).dropRows 10).padEdge (pw + 10) pw pw pw := by
    unfold Arr3.img Arr2.dropRows Arr2.padEdge
    simp only [hh, hw]
    congr 1
    funext i j
    exact hag _ _ (Nat.le_add_left 10 _)
  have hcond : ((((A.img k).dropRows 10).h = 0 ∧ 0 < pw + 10 + pw) ∨
        (((A.img k).dropRows 10).w = 0 ∧ 0 < pw + pw)) ↔
      ((((B.img k).dropRows 10).h = 0 ∧ 0 < pw + 10 + pw) ∨
        (((B.img k).dropRows 10).w = 0 ∧ 0 < pw + pw)) := by
    show ((A.h - 10 = 0 ∧ 0 < pw + 10 + pw) ∨ (A.w = 0 ∧ 0 < pw + pw)) ↔
      ((B.h - 10 = 0 ∧ 0 < pw + 10 + pw) ∨ (B.w = 0 ∧ 0 < pw + pw))
    rw [hh, hw]
  have hpad : ((A.img k).dropRows 10).padEdgeChecked (pw + 10) pw pw pw
      = ((B.img k).dropRows 10).padEdgeChecked (pw + 10) pw pw pw := by
    unfold Arr2.padEdgeChecked
    exact if_congr hcond rfl (congrArg Except.ok hmat)
  unfold fresnelProjImage
  rw [hpad]

/-- The `"PROJECTION"` loop body depends on the stack only through the
padded row-dropped image. -/
lemma fresnelImage_proj_congr (O : FFTOracles) (window : Arr2)
    (pw nrow ncol k : Nat) (A B : Arr3) (hh : A.h = B.h) (hw : A.w = B.w)
    (hag : ∀ i j, 10 ≤ i → A.el k i j = B.el k i j) :
    fresnelImage O A window pw "PROJECTION" nrow ncol k
      = fresnelImage O B window pw "PROJECTION" nrow ncol k := by
  show fresnelProjImage O A window pw nrow ncol k
    = fresnelProjImage O B window pw nrow ncol k
  exact fresnelProjImage_congr O window pw nrow ncol k A B hh hw hag

/-- The error-propagating loop check agrees on two stacks whose
per-image results agree. -/
lemma fresnelLoopCheck_congr (O : FFTOracles) (A B : Arr3) (window : Arr2)
    (pw : Nat) (pattern : String) (nrow ncol : Nat)
    (himg : ∀ k, fresnelImage O A window pw pattern nrow ncol k
      = fresnelImage O B window pw pattern nrow ncol k) :
    ∀ n, fresnelLoopCheck O A window pw pattern nrow ncol n
      = fresnelLoopCheck O B window pw pattern nrow ncol n := by
  intro n
  induction n with
  | zero => rfl
  | succ m ih =>
    show (match fresnelLoopCheck O A window pw pattern nrow ncol m with
      | Except.error e => Except.error e
      | Except.ok _ =>
        match fresnelImage O A window pw pattern nrow ncol m with
        | Except.error e => Except.error e
        | Except.ok _ => Except.ok ()) =
      (match fresnelLoopCheck O B window pw pattern nrow ncol m with
      | Except.error e => Except.error e
      | Except.ok _ =>
        match fresnelImage O B window pw pattern nrow ncol m with
        | Except.error e => Except.error e
        | Except.ok _ => Except.ok ())
    rw [ih, himg m]

/-- `fresnelRes` in `"PROJECTION"` mode is unchanged when rows 0-9 of
every image change (same shapes assumed). -/
lemma fresnelRes_proj_congr (O : FFTOracles) (A B : Arr3) (ratio : ℚ)
    (hd : A.d = B.d) (hh : A.h = B.h) (hw : A.w = B.w)
    (hag : ∀ k i j, 10 ≤ i → A.el k i j = B.el k i j) :
    fresnelRes O A "PROJECTION" ratio = fresnelRes O B "PROJECTION" ratio := by
  have himg : ∀ k,
      fresnelImage O A (_make_window A.h A.w ratio "PROJECTION")
        (min 150 (A.w / 10)) "PROJECTION" A.h A.w k
      = fresnelImage O B (_make_window A.h A.w ratio "PROJECTION")
        (min 150 (A.w / 10)) "PROJECTION" A.h A.w k :=
    fun k => fresnelImage_proj_congr O (_make_window A.h A.w ratio "PROJECTION")
      (min 150 (A.w / 10)) A.h A.w k A B hh hw (hag k)
  unfold fresnelRes
  rw [show B.d = A.d from hd.symm, show B.h = A.h from hh.symm,
    show B.w = A.w from hw.symm,
    ← fresnelLoopCheck_congr O A B (_make_window A.h A.w ratio "PROJECTION")
      (min 150 (A.w / 10)) "PROJECTION" A.h A.w himg A.d]
  congr 1
  funext _
  congr 1
  funext k i j
  refine if_congr Iff.rfl ?_ rfl
  exact congrArg (fun r => exceptElD r i j) (himg k)

/-- C10: in `"PROJECTION"` mode, `fresnel_filter` drops the first 10
rows of every image before padding, so two equal-shape stacks that
differ only in rows 0 through 9 filter to identical outputs (the rows at
those positions are rebuilt by edge replication from row 10). -/
theorem fresnel_drop_rows_noninterference (O : FFTOracles) (a b : NDArr)
    (d h w : Nat) (ratio : ℚ) (al : Bool)
    (ha : a.shape = [d, h, w]) (hb : b.shape = [d, h, w]) (_h11 : 11 ≤ h)
    (hag : ∀ k i j, 10 ≤ i → a.el [k, i, j] = b.el [k, i, j]) :
    fresnel_filter O a "PROJECTION" ratio al
      = fresnel_filter O b "PROJECTION" ratio al := by
  have hpa := (promoteRank_shape3 a d h w ha).2
  have hpb := (promoteRank_shape3 b d h w hb).2
  rw [fresnel_filter_run O a "PROJECTION" ratio al (by rw [hpa]; rfl),
     fresnel_filter_run O b "PROJECTION" ratio al (by rw [hpb]; rfl),
     (promoteRank_shape3 a d h w ha).1, (promoteRank_shape3 b d h w hb).1]
  obtain ⟨ta1, ta2, ta3, _⟩ := toArr3_fields a d h w ha
  obtain ⟨tb1, tb2, tb3, _⟩ := toArr3_fields b d h w hb
  have hd3 : a.toArr3.d = b.toArr3.d := by rw [ta1, tb1]
  have hh3 : a.toArr3.h = b.toArr3.h := by rw [ta2, tb2]
  have hw3 : a.toArr3.w = b.toArr3.w := by rw [ta3, tb3]
  have hag3 : ∀ k i j, 10 ≤ i → a.toArr3.el k i j = b.toArr3.el k i j := by
    intro k i j h10
    rw [toArr3_el a d h w ha, toArr3_el b d h w hb]
    exact hag k i j h10
  unfold fresnel_core
  cases al with
  | false =>
    show Except.map (fresnelFinish O false)
        (fresnelRes O a.toArr3 "PROJECTION" ratio)
      = Except.map (fresnelFinish O false)
        (fresnelRes O b.toArr3 "PROJECTION" ratio)
    exact congrArg (Except.map (fresnelFinish O false))
      (fresnelRes_proj_congr O a.toArr3 b.toArr3 ratio hd3 hh3 hw3 hag3)
  | true =>
    show Except.map (fresnelFinish O true)
        (fresnelRes O (a.toArr3.map fun x => -(O.rlog x)) "PROJECTION" ratio)
      = Except.map (fresnelFinish O true)
        (fresnelRes O (b.toArr3.map fun x => -(O.rlog x)) "PROJECTION" ratio)
    exact congrArg (Except.map (fresnelFinish O true))
      (fresnelRes_proj_congr O (a.toArr3.map fun x => -(O.rlog x))
        (b.toArr3.map fun x => -(O.rlog x)) ratio hd3 hh3 hw3
        (fun k i j h10 => congrArg (fun x => -(O.rlog x)) (hag3 k i j h10)))

/-- C10 witness: two concrete 1-image 11-by-1 stacks differing only at
row 0 filter identically. -/
theorem fresnel_drop_rows_noninterference_witness :
    fresnel_filter trivOracles
        ⟨[1, 11, 1], DType.float32, fun l => if l = [0, 0, 0] then 5 else 0⟩
        "PROJECTION" 1 true
      = fresnel_filter trivOracles
        ⟨[1, 11, 1], DType.float32, fun _ => 0⟩ "PROJECTION" 1 true :=
  fresnel_drop_rows_noninterference trivOracles
    ⟨[1, 11, 1], DType.float32, fun l => if l = [0, 0, 0] then 5 else 0⟩
    ⟨[1, 11, 1], DType.float32, fun _ => 0⟩ 1 11 1 1 true rfl rfl
    (by omega)
    (by
      intro k i j h10
      have hne : ¬([k, i, j] = [0, 0, 0]) := by
        simp only [List.cons.injEq, and_true, not_and]
        intro _ hi
        omega
      simp [hne])

end Tomo
